import Mathlib

/-!
Shallow embedding of the HAL Phase 3 automation core:
the daily task scheduler (task table, calendar mapper, week mapping,
day selector), the automation engine (dependency gate, execution
simulator, per-task execution, orchestration loop, report aggregation)
and the bounded alert history of the status broadcaster.

Conventions of the embedding:
- JS numbers that only ever hold integers (day indices, timestamps)
  become `Int`; durations and random draws become `Rat`.
- JS arithmetic that can produce NaN or Infinity (the efficiency
  computation divides by the result count with no guard) is modelled by
  the `JsNum` type with IEEE-style propagation rules.
- Randomness (`Math.random()`) and the clock (`moment()`) are passed in
  as explicit arguments: each call site of the JS code that draws a
  random number or reads the clock corresponds to one parameter.
- Fallible awaited calls (the Slack webhook `send`) return
  `Except String Unit`.
-/

namespace Hal

/-- A task definition as it appears in the `TASKS` table of the
task scheduler: id, name, owner, estimated hours, scheduled days,
dependency ids. -/
structure Task where
  id : String
  name : String
  owner : String
  hours : ℚ
  days : List Int
  deps : List String
deriving DecidableEq

/-- One week entry of the `TASKS` table: a name, the days it covers and
its ordered task list. -/
structure Week where
  name : String
  days : List Int
  tasks : List Task
deriving DecidableEq

/-- `TASKS.week1` — Memory Management Foundation. -/
def week1 : Week :=
  { name := "Memory Management Foundation"
    days := [1, 2, 3, 4, 5, 6, 7]
    tasks := [
      { id := "1.1", name := "Schema Design", owner := "Aria", hours := 4, days := [1, 2], deps := [] },
      { id := "1.2", name := "Vector Storage Research", owner := "Mira", hours := 4, days := [1, 2], deps := ["1.1"] },
      { id := "1.3", name := "Memory Scoping Framework", owner := "Lex", hours := 6, days := [1, 2], deps := ["1.1"] },
      { id := "2.1", name := "Embeddings Service Setup", owner := "Mira", hours := 6, days := [3, 4], deps := ["1.2"] },
      { id := "2.2", name := "Semantic Search Engine", owner := "Mira", hours := 8, days := [3, 4], deps := ["2.1"] },
      { id := "2.3", name := "Memory Indexing System", owner := "Aria", hours := 4, days := [3, 4], deps := ["2.1"] },
      { id := "3.1", name := "Airtable Memory Integration", owner := "Aria", hours := 6, days := [5, 6], deps := ["1.1", "1.3"] },
      { id := "3.2", name := "Memory Access Controls", owner := "Lex", hours := 4, days := [5, 6], deps := ["3.1"] },
      { id := "3.3", name := "Memory Retrieval Optimization", owner := "Mira", hours := 6, days := [5, 6], deps := ["2.2", "3.1"] },
      { id := "4.1", name := "Memory Service Integration Testing", owner := "Zane", hours := 8, days := [7], deps := ["3.1", "3.2", "3.3"] }
    ] }

/-- `TASKS.week2` — Guardrails and Safety Systems. -/
def week2 : Week :=
  { name := "Guardrails and Safety Systems"
    days := [8, 9, 10, 11, 12]
    tasks := [
      { id := "5.1", name := "Policy Framework Design", owner := "Lex", hours := 6, days := [8, 9], deps := [] },
      { id := "5.2", name := "LLM Judge Configuration", owner := "Lex", hours := 4, days := [8, 9], deps := ["5.1"] },
      { id := "5.3", name := "Escalation Workflow Design", owner := "Lex", hours := 4, days := [8, 9], deps := ["5.1"] },
      { id := "6.1", name := "Input Sanitization Pipeline", owner := "Lex", hours := 6, days := [10, 11], deps := ["5.2"] },
      { id := "6.2", name := "Output Filtering System", owner := "Lex", hours := 6, days := [10, 11], deps := ["5.2"] },
      { id := "6.3", name := "Real-time Safety Validation", owner := "Lex", hours := 8, days := [10, 11], deps := ["6.1", "6.2"] },
      { id := "7.1", name := "CI Integration Enhancement", owner := "Kai", hours := 4, days := [12], deps := ["6.3"] },
      { id := "7.2", name := "Safety Metrics Dashboard", owner := "Kai", hours := 4, days := [12], deps := ["6.3"] }
    ] }

/-- `TASKS.week3` — Performance Tracking and Integration. -/
def week3 : Week :=
  { name := "Performance Tracking and Integration"
    days := [13, 14, 15, 16, 17, 18]
    tasks := [
      { id := "8.1", name := "Performance Metrics Schema", owner := "Aria", hours := 4, days := [13, 14], deps := [] },
      { id := "8.2", name := "Task Outcome Tracking", owner := "Zane", hours := 6, days := [13, 14], deps := ["8.1"] },
      { id := "8.3", name := "Quality Assessment Framework", owner := "Zane", hours := 6, days := [13, 14], deps := ["8.1"] },
      { id := "9.1", name := "Real-time Performance Dashboard", owner := "Kai", hours := 8, days := [15, 16], deps := ["8.2"] },
      { id := "9.2", name := "Drift Detection System", owner := "Mira", hours := 6, days := [15, 16], deps := ["8.2", "8.3"] },
      { id := "9.3", name := "Automated Alerting System", owner := "Kai", hours := 4, days := [15, 16], deps := ["9.2"] },
      { id := "10.1", name := "End-to-End Integration Testing", owner := "Zane", hours := 12, days := [17, 18], deps := ["9.1", "9.2", "9.3"] },
      { id := "10.2", name := "Performance Validation", owner := "Zane", hours := 4, days := [17, 18], deps := ["10.1"] },
      { id := "10.3", name := "Security and Safety Testing", owner := "Lex", hours := 4, days := [17, 18], deps := ["10.1"] },
      { id := "10.4", name := "User Acceptance Testing", owner := "Lena", hours := 4, days := [17, 18], deps := ["10.2"] }
    ] }

/-- The lookup `TASKS[weekKey]` for `weekKey = week1 | week2 | week3`;
any other key misses the object and the scheduler returns `[]`. -/
def weekTable (w : Int) : Option Week :=
  if w = 1 then some week1
  else if w = 2 then some week2
  else if w = 3 then some week3
  else none

/-- `getCurrentPhaseDay`. The code computes
`daysSinceStart = now.diff(PHASE_START, days) + 1` and returns
`Math.min(Math.max(daysSinceStart, 1), 18)`. The moment diff (whole
days between now and the phase start, truncated, negative before the
start) is the explicit argument `diff`. -/
def getCurrentPhaseDay (diff : Int) : Int :=
  min (max (diff + 1) 1) 18

/-- `getCurrentWeek(day)`. -/
def getCurrentWeek (day : Int) : Int :=
  if day ≤ 7 then 1
  else if day ≤ 12 then 2
  else 3

/-- One step of the JS `replace(/\s+/g, '-')`: a run of whitespace
collapses to a single dash. The Boolean records whether the previous
character was whitespace (i.e. whether we are inside a run). -/
def collapseWsAux : Bool → List Char → List Char
  | _, [] => []
  | prevWs, c :: rest =>
    if c.isWhitespace then
      if prevWs then collapseWsAux true rest
      else '-' :: collapseWsAux true rest
    else c :: collapseWsAux false rest

/-- `s.replace(/\s+/g, '-')` on a whole string. -/
def collapseWs (s : String) : String :=
  ⟨collapseWsAux false s.data⟩

/-- A task as returned by `getTasksForDay`: the task definition fields
spread together with the week, the day and the derived display id. -/
structure ScheduledTask where
  id : String
  name : String
  owner : String
  hours : ℚ
  days : List Int
  deps : List String
  week : Int
  day : Int
  taskId : String
deriving DecidableEq

/-- `getTasksForDay(day)`: derive the week, look its entry up in
`TASKS`, keep the tasks whose `days` include the day, and annotate each
with week, day and the display id
`id + "-" + name.toLowerCase().replace(/\s+/g, '-')`. -/
def getTasksForDay (day : Int) : List ScheduledTask :=
  let week := getCurrentWeek day
  match weekTable week with
  | none => []
  | some w =>
    (w.tasks.filter (fun t => t.days.contains day)).map (fun t =>
      { id := t.id, name := t.name, owner := t.owner, hours := t.hours,
        days := t.days, deps := t.deps, week := week, day := day,
        taskId := t.id ++ "-" ++ collapseWs t.name.toLower })

/-- A JS number as it flows through the report computations: a finite
rational, one of the two infinities, or NaN. Only the operations the
engine uses are defined. Signed zero is not distinguished (the engine
never divides by a negative zero). -/
inductive JsNum where
  | nan
  | posInf
  | negInf
  | fin (q : ℚ)
deriving DecidableEq

/-- `Math.round` on a finite value: round half toward positive
infinity, which is Mathlib's `round`. -/
def jsRoundQ (q : ℚ) : ℤ := round q

namespace JsNum

/-- JS addition. -/
def add : JsNum → JsNum → JsNum
  | nan, _ => nan
  | _, nan => nan
  | posInf, negInf => nan
  | negInf, posInf => nan
  | posInf, _ => posInf
  | _, posInf => posInf
  | negInf, _ => negInf
  | _, negInf => negInf
  | fin a, fin b => fin (a + b)

/-- JS multiplication. -/
def mul : JsNum → JsNum → JsNum
  | nan, _ => nan
  | _, nan => nan
  | posInf, posInf => posInf
  | posInf, negInf => negInf
  | negInf, posInf => negInf
  | negInf, negInf => posInf
  | posInf, fin b => if 0 < b then posInf else if b < 0 then negInf else nan
  | fin a, posInf => if 0 < a then posInf else if a < 0 then negInf else nan
  | negInf, fin b => if 0 < b then negInf else if b < 0 then posInf else nan
  | fin a, negInf => if 0 < a then negInf else if a < 0 then posInf else nan
  | fin a, fin b => fin (a * b)

/-- JS division: `0/0` is NaN, `a/0` for nonzero `a` is a signed
infinity, a finite number over an infinity is `0`. -/
def div : JsNum → JsNum → JsNum
  | nan, _ => nan
  | _, nan => nan
  | posInf, posInf => nan
  | posInf, negInf => nan
  | negInf, posInf => nan
  | negInf, negInf => nan
  | posInf, fin b => if b < 0 then negInf else posInf
  | negInf, fin b => if b < 0 then posInf else negInf
  | fin _, posInf => fin 0
  | fin _, negInf => fin 0
  | fin a, fin b =>
    if b = 0 then (if 0 < a then posInf else if a < 0 then negInf else nan)
    else fin (a / b)

/-- `Math.min`: NaN if either argument is NaN. -/
def min : JsNum → JsNum → JsNum
  | nan, _ => nan
  | _, nan => nan
  | negInf, _ => negInf
  | _, negInf => negInf
  | posInf, b => b
  | a, posInf => a
  | fin a, fin b => fin (Min.min a b)

/-- `Math.round`: round half toward positive infinity on finite
numbers, identity on infinities and NaN. -/
def round : JsNum → JsNum
  | nan => nan
  | posInf => posInf
  | negInf => negInf
  | fin q => fin ((jsRoundQ q : ℤ) : ℚ)

end JsNum

/-- `JSON.stringify` of a number field: NaN and the infinities
serialize as `null` (`none`), finite numbers as themselves. -/
def jsonNumber : JsNum → Option ℚ
  | .fin q => some q
  | _ => none

/-- A task execution result as built by `executeTask`. The blocked
branch of the code builds its object without an `owner` (and without an
`error`) key, hence those fields are `Option`s; `error` holds the stack
text of the thrown error, abstracted here to its message. -/
structure TaskResult where
  taskId : String
  status : String
  message : String
  startTime : Int
  endTime : Int
  duration : ℚ
  owner : Option String
  error : Option String
deriving DecidableEq

/-- `checkDependencies(deps)`: an empty dependency list is always
ready; otherwise the code draws `Math.random() > 0.2` — the draw is the
`rand` argument. -/
def checkDependencies (deps : List String) (rand : ℚ) : Bool :=
  if deps.length = 0 then true
  else decide ((0.2 : ℚ) < rand)

/-- The `taskTypes` table of `simulateTaskExecution`, in the key
insertion order the JS `for-in` loop iterates it. -/
def taskTypes : List (String × ℚ × ℚ) :=
  [("Schema", 3000, 1000),
   ("Vector", 5000, 2000),
   ("Memory", 4000, 1500),
   ("Safety", 6000, 2500),
   ("Testing", 8000, 3000),
   ("Integration", 10000, 4000),
   ("Dashboard", 4000, 1000)]

/-- `String.prototype.includes` via `splitOn`: a non-empty needle
occurs in `s` iff splitting on it yields more than one part. -/
def jsIncludes (s needle : String) : Bool :=
  (s.splitOn needle).length != 1

/-- `simulateTaskExecution(task)`: classify the task by the first
`taskTypes` key its name includes (default Schema), compute the
execution time `baseTime + Math.random() * variance` (draw `randTime`),
then with probability 5 percent (draw `randFail`) throw a simulated
failure; otherwise sleep for the execution time and return. -/
def simulateTaskExecution (name : String) (randTime randFail : ℚ) :
    Except String ℚ :=
  let cfg := (taskTypes.find? (fun p => jsIncludes name p.1)).getD
    ("Schema", 3000, 1000)
  let executionTime := cfg.2.1 + randTime * cfg.2.2
  if randFail < 0.05 then
    .error ("Simulated failure during " ++ cfg.1 ++ " execution")
  else
    .ok executionTime

/-- `executeTask(task, week)`: gate on dependencies (draw `randDep`),
then simulate execution (draws `randTime`, `randFail`); `startTime` and
`endTime` are the two clock reads, `duration` their difference in
seconds (`0` in the blocked branch, which returns before any work). -/
def executeTask (task : ScheduledTask) (randDep randTime randFail : ℚ)
    (startTime endTime : Int) : TaskResult :=
  if !(checkDependencies task.deps randDep) then
    { taskId := task.id, status := "blocked",
      message := "Dependencies not completed",
      startTime := startTime, endTime := endTime, duration := 0,
      owner := none, error := none }
  else
    match simulateTaskExecution task.name randTime randFail with
    | .ok _ =>
      { taskId := task.id, status := "completed",
        message := "Task completed successfully",
        startTime := startTime, endTime := endTime,
        duration := ((endTime - startTime : Int) : ℚ),
        owner := some task.owner, error := none }
    | .error e =>
      { taskId := task.id, status := "failed", message := e,
        startTime := startTime, endTime := endTime,
        duration := ((endTime - startTime : Int) : ℚ),
        owner := some task.owner, error := some e }

/-- Observable events of one daily cycle, in emission order: the
startup Slack message, a task's result settling, that task's Slack
update being sent, and the daily report being sent. -/
inductive Event where
  | started
  | settled (taskId : String)
  | notified (taskId : String)
  | reported
deriving DecidableEq

/-- Recognizer for per-task Slack update events. -/
def Event.isNotified : Event → Bool
  | .notified _ => true
  | _ => false

/-- `executeTasks(tasks, week)`: process the tasks strictly in order;
for each, obtain its result (`exec` stands for `executeTask` applied to
the run's random draws and clock reads), append it to `results`, then
await `sendTaskNotification` (`notify`), whose webhook `send` may
reject — the rejection propagates out of the loop, abandoning the
remaining tasks and the collected results. The event list records what
was observably emitted. -/
def executeTasks (tasks : List ScheduledTask)
    (exec : ScheduledTask → TaskResult)
    (notify : ScheduledTask → TaskResult → Except String Unit) :
    Except String (List TaskResult × List Event) :=
  match tasks with
  | [] => .ok ([], [])
  | t :: rest =>
    let result := exec t
    match notify t result with
    | .error e => .error e
    | .ok _ =>
      match executeTasks rest exec notify with
      | .error e => .error e
      | .ok (results, events) =>
        .ok (result :: results,
             .settled t.id :: .notified t.id :: events)

/-- Report summary block. `successRate` is kept as the rounded rational
the code formats with `toFixed(1)` (or the literal `'0'` when there are
no results). -/
structure Summary where
  total : Nat
  completed : Nat
  failed : Nat
  blocked : Nat
  successRate : ℚ
deriving DecidableEq

/-- Report performance block. -/
structure Performance where
  totalTime : Int
  averageTime : Int
  efficiency : JsNum
deriving DecidableEq

/-- Report next-day preview block. -/
structure NextDay where
  day : Int
  week : Int
  scheduledTasks : Nat
deriving DecidableEq

/-- The daily report persisted to `reports/daily-report-<date>.json`. -/
structure Report where
  date : String
  day : Int
  week : Int
  summary : Summary
  performance : Performance
  nextDay : NextDay
deriving DecidableEq

/-- `results.reduce((sum, r) => sum + r.duration, 0)`. -/
def totalDuration (results : List TaskResult) : ℚ :=
  results.foldl (fun sum r => sum + r.duration) 0

/-- The value of `x.toFixed(1)`: one decimal digit kept. -/
def toFixed1 (q : ℚ) : ℚ :=
  ((round (q * 10) : ℤ) : ℚ) / 10

/-- `calculateEfficiency(results)`: completion rate and average
duration both divide by `results.length` with no emptiness guard, so on
an empty result set every quantity here is NaN. -/
def calculateEfficiency (results : List TaskResult) : JsNum :=
  let completionRate := JsNum.div
    (.fin ((results.filter (fun r => r.status == "completed")).length : ℚ))
    (.fin (results.length : ℚ))
  let avgTime := JsNum.div (.fin (totalDuration results))
    (.fin (results.length : ℚ))
  let expectedTime : ℚ := 300
  let timeEfficiency := JsNum.min (JsNum.div (.fin expectedTime) avgTime)
    (.fin 1)
  JsNum.round (JsNum.mul
    (JsNum.add (JsNum.mul completionRate (.fin 0.7))
               (JsNum.mul timeEfficiency (.fin 0.3)))
    (.fin 100))

/-- `generateDailyReport(day, week, results)` without its side effects
(file write and Slack sends); `date` is the formatted current date. -/
def generateDailyReport (day week : Int) (results : List TaskResult)
    (date : String) : Report :=
  let completed := results.filter (fun r => r.status == "completed")
  let failed := results.filter (fun r => r.status == "failed")
  let blocked := results.filter (fun r => r.status == "blocked")
  let totalDur := totalDuration results
  let avgDuration : ℚ :=
    if 0 < results.length then totalDur / (results.length : ℚ) else 0
  { date := date, day := day, week := week,
    summary := {
      total := results.length,
      completed := completed.length,
      failed := failed.length,
      blocked := blocked.length,
      successRate :=
        if 0 < results.length then
          toFixed1 ((completed.length : ℚ) / (results.length : ℚ) * 100)
        else 0 },
    performance := {
      totalTime := round (totalDur / 60),
      averageTime := round avgDuration,
      efficiency := calculateEfficiency results },
    nextDay := {
      day := min (day + 1) 18,
      week := getCurrentWeek (min (day + 1) 18),
      scheduledTasks := (getTasksForDay (min (day + 1) 18)).length } }

/-- `executeDaily()`: derive the day, week and task list from the clock
(`diff` is the moment day difference from the phase start), send the
startup notification (caught internally, so it emits `started` and
never throws), run the tasks, then generate the daily report and send
it. A webhook rejection inside the task loop propagates and aborts the
cycle before any report is produced. -/
def executeDaily (diff : Int) (exec : ScheduledTask → TaskResult)
    (notify : ScheduledTask → TaskResult → Except String Unit)
    (date : String) : Except String (Report × List Event) :=
  let currentDay := getCurrentPhaseDay diff
  let currentWeek := getCurrentWeek currentDay
  let tasksForToday := getTasksForDay currentDay
  match executeTasks tasksForToday exec notify with
  | .error e => .error e
  | .ok (results, events) =>
    .ok (generateDailyReport currentDay currentWeek results date,
         .started :: events ++ [.reported])

/-- A stored alert of the status broadcaster, after `addAlert` has
stamped the incoming alert with a timestamp and an id. -/
structure Alert where
  id : String
  level : String
  message : String
  component : String
  timestamp : Int
deriving DecidableEq

/-- `addAlert(alert)` on the alerts list: `unshift` the stamped alert
to the front, then keep only the first 50 via `slice(0, 50)` once the
length exceeds 50. The caller supplies the stamped alert. -/
def addAlert (a : Alert) (alerts : List Alert) : List Alert :=
  let l := a :: alerts
  if 50 < l.length then l.take 50 else l

/-- A synthetic alert fixture used to exercise the alert history. -/
def mkAlert (i : Nat) : Alert :=
  { id := toString i, level := "info", message := "synthetic alert",
    component := "test", timestamp := (i : Int) }

/-- A concrete result set with one result of each status, used as a
test fixture. -/
def sampleResults : List TaskResult :=
  [{ taskId := "1.1", status := "completed", message := "ok",
     startTime := 0, endTime := 4, duration := 4,
     owner := some "Aria", error := none },
   { taskId := "1.2", status := "failed", message := "boom",
     startTime := 4, endTime := 9, duration := 5,
     owner := some "Mira", error := some "boom" },
   { taskId := "1.3", status := "blocked",
     message := "Dependencies not completed", startTime := 9,
     endTime := 9, duration := 0, owner := none, error := none }]

/-- C4: the Calendar Mapper always returns
clamp(daysSinceStart + 1, 1, 18): the result is in [1, 18], a date
before the phase start (nonpositive day diff) yields 1, and a date far
past the horizon yields 18. -/
theorem phase_day_clamped (diff : Int) :
    getCurrentPhaseDay diff = min (max (diff + 1) 1) 18 ∧
    (1 ≤ getCurrentPhaseDay diff ∧ getCurrentPhaseDay diff ≤ 18) ∧
    (diff ≤ 0 → getCurrentPhaseDay diff = 1) ∧
    (17 ≤ diff → getCurrentPhaseDay diff = 18) := by
  unfold getCurrentPhaseDay
  refine ⟨rfl, ⟨?_, ?_⟩, ?_, ?_⟩ <;> omega

/-- Witness for C4 at concrete inputs: 30 days before the start the
mapper answers day 1, 40 days after it answers day 18. -/
theorem phase_day_clamped_witness :
    getCurrentPhaseDay (-30) = 1 ∧ getCurrentPhaseDay 40 = 18 :=
  ⟨(phase_day_clamped (-30)).2.2.1 (by decide),
   (phase_day_clamped 40).2.2.2 (by decide)⟩

/-- C9: for day indices in [1, 18] the week mapping returns 1 for
d ≤ 7, 2 for 8 ≤ d ≤ 12 and 3 for 13 ≤ d ≤ 18, with the boundary
days 7, 8, 12 and 13 exact. -/
theorem week_mapping_correct :
    (∀ d : Int, 1 ≤ d → d ≤ 18 →
      ((d ≤ 7 → getCurrentWeek d = 1) ∧
       (8 ≤ d → d ≤ 12 → getCurrentWeek d = 2) ∧
       (13 ≤ d → getCurrentWeek d = 3))) ∧
    getCurrentWeek 7 = 1 ∧ getCurrentWeek 8 = 2 ∧
    getCurrentWeek 12 = 2 ∧ getCurrentWeek 13 = 3 := by
  refine ⟨?_, by decide, by decide, by decide, by decide⟩
  intro d h1 h2
  unfold getCurrentWeek
  refine ⟨fun h => ?_, fun h h' => ?_, fun h => ?_⟩ <;>
    split_ifs <;> omega

/-- Witness for C9 at the concrete day 9, which lies in week 2. -/
theorem week_mapping_correct_witness : getCurrentWeek 9 = 2 :=
  (week_mapping_correct.1 9 (by decide) (by decide)).2.1
    (by decide) (by decide)

/-- C8: the Day Task Selector only returns tasks scheduled on the
requested day, and day 1 yields exactly the tasks 1.1, 1.2, 1.3. -/
theorem day_selector_sound :
    (∀ (d : Int) (t : ScheduledTask), t ∈ getTasksForDay d →
      d ∈ t.days) ∧
    (getTasksForDay 1).map (fun t => t.id) = ["1.1", "1.2", "1.3"] := by
  constructor
  · intro d t ht
    unfold getTasksForDay at ht
    cases hw : weekTable (getCurrentWeek d) with
    | none => simp [hw] at ht
    | some w =>
      simp only [hw, List.mem_map, List.mem_filter] at ht
      obtain ⟨t0, ⟨_, hc⟩, rfl⟩ := ht
      simpa using hc
  · decide

/-- Witness for C8: the first task selected for day 1 is indeed
scheduled on day 1. -/
theorem day_selector_sound_witness :
    (1 : Int) ∈ ((getTasksForDay 1).get ⟨0, by decide⟩).days :=
  day_selector_sound.1 1 _ (List.get_mem _ _ _)

/-- C1 (code bug): a rejected per-task webhook send propagates out of
the task loop and kills the whole cycle. On day 1 (three scheduled
tasks) a send failure on the first task's update makes `executeDaily`
abort with that error — no report, no remaining tasks — whereas the
identical run with a succeeding sink completes with all three tasks in
the report. -/
theorem notification_failure_aborts_cycle :
    executeDaily 0 (fun t => executeTask t (1 / 2) 0 (1 / 2) 0 5)
      (fun t _ => if t.id == "1.1" then
        .error "Slack webhook send failed" else .ok ())
      "2025-10-01" = .error "Slack webhook send failed" ∧
    ∃ rep events,
      executeDaily 0 (fun t => executeTask t (1 / 2) 0 (1 / 2) 0 5)
        (fun _ _ => .ok ()) "2025-10-01" = .ok (rep, events) ∧
      rep.summary.total = 3 :=
  ⟨rfl, _, _, rfl, rfl⟩

/-- C2 (code bug): the blocked branch of `executeTask` builds its
result without an `owner` key. Running task 1.2 (which has a
dependency) with a dependency draw of 0.1 blocks it, and the blocked
result carries no owner even though the task has one; the completed
result of the same task carries it. -/
theorem blocked_result_omits_owner :
    (executeTask
      { id := "1.2", name := "Vector Storage Research", owner := "Mira",
        hours := 4, days := [1, 2], deps := ["1.1"], week := 1, day := 1,
        taskId := "1.2-vector-storage-research" }
      (1 / 10) 0 (1 / 2) 0 4).status = "blocked" ∧
    (executeTask
      { id := "1.2", name := "Vector Storage Research", owner := "Mira",
        hours := 4, days := [1, 2], deps := ["1.1"], week := 1, day := 1,
        taskId := "1.2-vector-storage-research" }
      (1 / 10) 0 (1 / 2) 0 4).owner = none ∧
    (executeTask
      { id := "1.2", name := "Vector Storage Research", owner := "Mira",
        hours := 4, days := [1, 2], deps := ["1.1"], week := 1, day := 1,
        taskId := "1.2-vector-storage-research" }
      (1 / 2) 0 (1 / 2) 0 4).owner = some "Mira" := by
  refine ⟨?_, ?_, ?_⟩ <;>
    norm_num [executeTask, checkDependencies, simulateTaskExecution,
      jsIncludes, taskTypes]

/-- The three status filters of the report partition any result list
whose statuses are drawn from the three legal values. -/
theorem filter_status_partition (rs : List TaskResult)
    (h : ∀ r ∈ rs, r.status = "completed" ∨ r.status = "failed" ∨
      r.status = "blocked") :
    (rs.filter (fun r => r.status == "completed")).length +
    (rs.filter (fun r => r.status == "failed")).length +
    (rs.filter (fun r => r.status == "blocked")).length = rs.length := by
  induction rs with
  | nil => simp
  | cons r rest ih =>
    have hr := h r (List.mem_cons_self ..)
    have hrest := ih (fun x hx => h x (List.mem_cons_of_mem _ hx))
    rcases hr with h1 | h1 | h1 <;>
      simp [List.filter_cons, h1] <;> omega

/-- C3: in every generated daily report the summary counts satisfy
completed + failed + blocked = total, for any result list (the empty
one included) whose statuses are among the three the engine
produces. -/
theorem report_summary_partition (day week : Int) (date : String)
    (rs : List TaskResult)
    (h : ∀ r ∈ rs, r.status = "completed" ∨ r.status = "failed" ∨
      r.status = "blocked") :
    (generateDailyReport day week rs date).summary.completed +
    (generateDailyReport day week rs date).summary.failed +
    (generateDailyReport day week rs date).summary.blocked =
    (generateDailyReport day week rs date).summary.total :=
  filter_status_partition rs h

/-- Witness for C3 on a concrete three-result set with one result of
each status. -/
theorem report_summary_partition_witness :
    (generateDailyReport 1 1 sampleResults "2025-10-01").summary.completed +
    (generateDailyReport 1 1 sampleResults "2025-10-01").summary.failed +
    (generateDailyReport 1 1 sampleResults "2025-10-01").summary.blocked =
    (generateDailyReport 1 1 sampleResults "2025-10-01").summary.total :=
  report_summary_partition 1 1 "2025-10-01" sampleResults (by decide)

/-- Inserting into a history of at most 50 alerts is a prepend
truncated to the first 50 entries. -/
theorem addAlert_eq_take (a : Alert) (l : List Alert)
    (h : l.length ≤ 50) : addAlert a l = (a :: l).take 50 := by
  simp only [addAlert]
  split_ifs with hl
  · rfl
  · exact (List.take_of_length_le
      (by simp only [List.length_cons] at hl ⊢; omega)).symm

/-- Truncating the tail of an append before taking changes nothing. -/
theorem take_append_take {α : Type} (xs ys : List α) (n : Nat) :
    (xs ++ ys.take n).take n = (xs ++ ys).take n := by
  rw [List.take_append_eq_append_take, List.take_append_eq_append_take,
    List.take_take]
  have hmin : (n - xs.length) ⊓ n = n - xs.length :=
    Nat.min_eq_left (Nat.sub_le n xs.length)
  rw [hmin]

/-- Folding `addAlert` over an incoming alert stream from any history
of at most 50 alerts leaves the most recent 50 entries, newest
first. -/
theorem foldl_addAlert (as : List Alert) :
    ∀ acc : List Alert, acc.length ≤ 50 →
      as.foldl (fun l a => addAlert a l) acc =
        (as.reverse ++ acc).take 50 := by
  induction as with
  | nil =>
    intro acc h
    simp [List.take_of_length_le h]
  | cons a rest ih =>
    intro acc h
    rw [List.foldl_cons, addAlert_eq_take a acc h,
      ih _ (by simp only [List.length_take]; omega),
      take_append_take]
    simp

/-- C6: sixty sequential insertions into an initially empty alert
history retain exactly 50 alerts, the most recently inserted one at
index 0, and the retained 50 are the 50 most recent in
reverse-chronological order. -/
theorem alert_history_bounded (as : List Alert) (h : as.length = 60) :
    (as.foldl (fun l a => addAlert a l) []).length = 50 ∧
    (as.foldl (fun l a => addAlert a l) []).head? = as.getLast? ∧
    as.foldl (fun l a => addAlert a l) [] = as.reverse.take 50 := by
  have hr : as.foldl (fun l a => addAlert a l) [] =
      as.reverse.take 50 := by
    rw [foldl_addAlert as [] (by simp)]
    simp
  have hne : as.reverse ≠ [] := by
    intro hh
    have := congrArg List.length hh
    simp [h] at this
  obtain ⟨b, bs, hb⟩ := List.exists_cons_of_ne_nil hne
  refine ⟨?_, ?_, hr⟩
  · rw [hr]
    simp [List.length_take, h]
  · rw [hr, List.getLast?_eq_head?_reverse, hb]
    rfl

/-- Witness for C6 on a concrete stream of 60 distinct alerts. -/
theorem alert_history_bounded_witness :
    (((List.range 60).map mkAlert).foldl
      (fun l a => addAlert a l) []).length = 50 ∧
    (((List.range 60).map mkAlert).foldl
      (fun l a => addAlert a l) []).head? =
      ((List.range 60).map mkAlert).getLast? ∧
    ((List.range 60).map mkAlert).foldl (fun l a => addAlert a l) [] =
      ((List.range 60).map mkAlert).reverse.take 50 :=
  alert_history_bounded _ (by simp)

/-- C10: a report generated from an empty result set still carries
summary.total = 0 and performance.averageTime = 0, but the efficiency
computation divides by the result count without a guard, so
performance.efficiency is NaN and serializes to null rather than a
number. -/
theorem empty_day_report_efficiency_nan (day week : Int)
    (date : String) :
    (generateDailyReport day week [] date).summary.total = 0 ∧
    (generateDailyReport day week [] date).performance.averageTime
      = 0 ∧
    (generateDailyReport day week [] date).performance.efficiency
      = JsNum.nan ∧
    jsonNumber
      (generateDailyReport day week [] date).performance.efficiency
      = none := by
  refine ⟨rfl, ?_, ?_, ?_⟩ <;>
    norm_num [generateDailyReport, calculateEfficiency, totalDuration,
      jsonNumber, JsNum.div, JsNum.min, JsNum.mul, JsNum.add,
      JsNum.round]

/-- Division of finite JS numbers with a nonzero divisor is finite. -/
theorem JsNum.div_fin_fin {a b : ℚ} (h : b ≠ 0) :
    JsNum.div (.fin a) (.fin b) = .fin (a / b) := by
  simp [JsNum.div, h]

/-- `Math.min` of finite JS numbers is the finite minimum. -/
theorem JsNum.min_fin_fin (a b : ℚ) :
    JsNum.min (.fin a) (.fin b) = .fin (Min.min a b) := rfl

/-- Multiplication of finite JS numbers is finite. -/
theorem JsNum.mul_fin_fin (a b : ℚ) :
    JsNum.mul (.fin a) (.fin b) = .fin (a * b) := rfl

/-- Addition of finite JS numbers is finite. -/
theorem JsNum.add_fin_fin (a b : ℚ) :
    JsNum.add (.fin a) (.fin b) = .fin (a + b) := rfl

/-- Rounding a finite JS number rounds the rational. -/
theorem JsNum.round_fin (q : ℚ) :
    JsNum.round (.fin q) = .fin ((jsRoundQ q : ℤ) : ℚ) := rfl

/-- The rounded 70/30 blend of two quantities in [0, 1], scaled by 100,
lies within [0, 100]. -/
theorem round_blend_bounds (cr te : ℚ) (h1 : 0 ≤ cr) (h2 : cr ≤ 1)
    (h3 : 0 ≤ te) (h4 : te ≤ 1) :
    (0 : ℚ) ≤ ((jsRoundQ ((cr * 0.7 + te * 0.3) * 100) : ℤ) : ℚ) ∧
    ((jsRoundQ ((cr * 0.7 + te * 0.3) * 100) : ℤ) : ℚ) ≤ 100 := by
  have hx0 : (0 : ℚ) ≤ (cr * 0.7 + te * 0.3) * 100 := by nlinarith
  have hx100 : (cr * 0.7 + te * 0.3) * 100 ≤ 100 := by nlinarith
  constructor
  · have h : (0 : ℤ) ≤ jsRoundQ ((cr * 0.7 + te * 0.3) * 100) := by
      unfold jsRoundQ
      rw [round_eq]
      exact Int.floor_nonneg.mpr (by linarith)
    exact_mod_cast h
  · have h : jsRoundQ ((cr * 0.7 + te * 0.3) * 100) ≤ 100 := by
      unfold jsRoundQ
      rw [round_eq]
      have hf : ⌊(cr * 0.7 + te * 0.3) * 100 + 1 / 2⌋ ≤
          ⌊(100 : ℚ) + 1 / 2⌋ := Int.floor_le_floor (by linarith)
      have hc : ⌊(100 : ℚ) + 1 / 2⌋ = 100 := by
        norm_num [Int.floor_eq_iff]
      omega
    exact_mod_cast h

/-- C5: on any nonempty result set with positive total duration (so the
completion rate is in [0, 1] and the average duration is positive), the
efficiency score is a finite number within [0, 100]. -/
theorem efficiency_within_bounds (results : List TaskResult)
    (hne : results ≠ []) (hpos : 0 < totalDuration results) :
    ∃ q : ℚ, calculateEfficiency results = .fin q ∧ 0 ≤ q ∧ q ≤ 100 := by
  have hn : 0 < results.length := List.length_pos.mpr hne
  have hnq : (0 : ℚ) < (results.length : ℚ) := by exact_mod_cast hn
  have hnne : ((results.length : ℚ)) ≠ 0 := ne_of_gt hnq
  have havg : (0 : ℚ) < totalDuration results / (results.length : ℚ) :=
    div_pos hpos hnq
  simp only [calculateEfficiency, JsNum.div_fin_fin hnne,
    JsNum.div_fin_fin (ne_of_gt havg), JsNum.min_fin_fin,
    JsNum.mul_fin_fin, JsNum.add_fin_fin, JsNum.round_fin]
  refine ⟨_, rfl, ?_⟩
  apply round_blend_bounds
  · positivity
  · exact (div_le_one hnq).mpr
      (by exact_mod_cast List.length_filter_le _ _)
  · exact le_min (le_of_lt (div_pos (by norm_num) havg)) (by norm_num)
  · exact min_le_right _ _

/-- Witness for C5 on a concrete result set of three tasks taking nine
seconds in total. -/
theorem efficiency_within_bounds_witness :
    ∃ q : ℚ, calculateEfficiency sampleResults = .fin q ∧
      0 ≤ q ∧ q ≤ 100 :=
  efficiency_within_bounds sampleResults (by simp [sampleResults])
    (by norm_num [totalDuration, sampleResults])

/-- In a successful run of the task loop, the notification events
appear exactly in task order and every task's settling event is in the
emitted event list. -/
theorem executeTasks_events (exec : ScheduledTask → TaskResult)
    (notify : ScheduledTask → TaskResult → Except String Unit) :
    ∀ (tasks : List ScheduledTask) (rs : List TaskResult)
      (es : List Event),
      executeTasks tasks exec notify = .ok (rs, es) →
      es.filter Event.isNotified =
        tasks.map (fun t => Event.notified t.id) ∧
      ∀ t ∈ tasks, Event.settled t.id ∈ es := by
  intro tasks
  induction tasks with
  | nil =>
    intro rs es h
    simp only [executeTasks, Except.ok.injEq, Prod.mk.injEq] at h
    simp [← h.2]
  | cons t rest ih =>
    intro rs es h
    simp only [executeTasks] at h
    cases hn : notify t (exec t) with
    | error e => rw [hn] at h; cases h
    | ok u =>
      rw [hn] at h
      cases hr : executeTasks rest exec notify with
      | error e => rw [hr] at h; cases h
      | ok p =>
        obtain ⟨rs', es'⟩ := p
        rw [hr] at h
        simp only [Except.ok.injEq, Prod.mk.injEq] at h
        obtain ⟨hrs, hes⟩ := h
        obtain ⟨hf, hm⟩ := ih rs' es' hr
        subst hes
        constructor
        · simp [List.filter_cons, Event.isNotified, hf]
        · intro x hx
          rcases List.mem_cons.mp hx with hx1 | hx2
          · subst hx1; exact List.mem_cons_self ..
          · exact List.mem_cons_of_mem _
              (List.mem_cons_of_mem _ (hm x hx2))

/-- C7: in a cycle that runs to completion, per-task notifications are
emitted in exactly the order the tasks were selected for the day, and
the daily report notification is the last event — in particular it
comes after every task has settled. -/
theorem notification_order_preserved (diff : Int)
    (exec : ScheduledTask → TaskResult)
    (notify : ScheduledTask → TaskResult → Except String Unit)
    (date : String) (rep : Report) (trace : List Event)
    (h : executeDaily diff exec notify date = .ok (rep, trace)) :
    trace.filter Event.isNotified =
      (getTasksForDay (getCurrentPhaseDay diff)).map
        (fun t => Event.notified t.id) ∧
    trace.getLast? = some .reported ∧
    ∀ t ∈ getTasksForDay (getCurrentPhaseDay diff),
      Event.settled t.id ∈ trace.dropLast := by
  simp only [executeDaily] at h
  cases hr : executeTasks (getTasksForDay (getCurrentPhaseDay diff))
      exec notify with
  | error e => rw [hr] at h; cases h
  | ok p =>
    obtain ⟨rs, es⟩ := p
    rw [hr] at h
    simp only [Except.ok.injEq, Prod.mk.injEq] at h
    obtain ⟨hrep, htr⟩ := h
    obtain ⟨hf, hm⟩ := executeTasks_events exec notify _ rs es hr
    subst htr
    refine ⟨?_, ?_, ?_⟩
    · simp [List.filter_cons, List.filter_append, Event.isNotified, hf]
    · show ((Event.started :: es) ++ [Event.reported]).getLast? =
        some Event.reported
      exact List.getLast?_concat _
    · intro t ht
      show Event.settled t.id ∈
        ((Event.started :: es) ++ [Event.reported]).dropLast
      rw [List.dropLast_concat]
      exact List.mem_cons_of_mem _ (hm t ht)

/-- Witness for C7: a full concrete run of day 7 (one scheduled task)
with a succeeding notification sink. -/
theorem notification_order_preserved_witness :
    ∃ (rep : Report) (trace : List Event),
      executeDaily 6 (fun t => executeTask t (1 / 2) 0 (1 / 2) 0 5)
        (fun _ _ => .ok ()) "2025-10-07" = .ok (rep, trace) ∧
      (trace.filter Event.isNotified =
        (getTasksForDay (getCurrentPhaseDay 6)).map
          (fun t => Event.notified t.id) ∧
      trace.getLast? = some .reported ∧
      ∀ t ∈ getTasksForDay (getCurrentPhaseDay 6),
        Event.settled t.id ∈ trace.dropLast) := by
  refine ⟨_, _, rfl, ?_⟩
  exact notification_order_preserved 6
    (fun t => executeTask t (1 / 2) 0 (1 / 2) 0 5)
    (fun _ _ => .ok ()) "2025-10-07" _ _ rfl

end Hal
